import Mathlib

/-!
Verification of the AlgoForge front-end logic.

This file gives a shallow embedding, in Lean 4, of the state-management
logic of the AlgoForge repository:

* the pure blog-post filter `pureFilterPosts` (Blog page);
* the topic-carousel pagination of `QuizStart.jsx` (`displayedTopics`,
  `handleTopicNav`, and the `disabled` guards of the navigation buttons);
* the password-rule validator `checkPasswordRules` and the submit handler
  `handleSubmit` of `Signup.jsx` (together with `handlePasswordChange`);
* the repository-statistics fetcher `fetchRepoStats` of the Contribute page;
* the interaction-tracking counters (`performanceMetrics`) of the Blog page.

JavaScript strings are modelled as Lean `String`s; `toLowerCase`,
`includes`, `startsWith(" ")` and `trimStart` are embedded over the
character list `String.data` (ASCII case folding via `Char.toLower`,
matching the behaviour of the source on its ASCII data). Stateful handlers
are embedded as explicit state-passing functions; asynchronous outcomes
(backend response, fetch result) are made explicit parameters.
-/

namespace AlgoForge

/-! ## JS string primitives -/

/-- Embedding of `s.toLowerCase()`: character-wise lower casing of the string. -/
def strToLower (s : String) : String := ⟨s.data.map Char.toLower⟩

/-- Embedding of `haystack.includes(needle)` on character lists: `pat` occurs
contiguously inside `s`.  Scans every suffix of `s` for `pat` as a
leading segment. -/
def jsIncludes (pat : List Char) : List Char → Bool
  | [] => pat.isEmpty
  | c :: t => pat.isPrefixOf (c :: t) || jsIncludes pat t

/-- Embedding of `s.includes(pat)` for strings. -/
def strIncludes (s pat : String) : Bool := jsIncludes pat.data s.data

theorem isPrefixOf_iff_append (pat l : List Char) :
    pat.isPrefixOf l = true ↔ ∃ r, pat ++ r = l := by
  induction pat generalizing l with
  | nil => simp [List.isPrefixOf]
  | cons a as ih =>
    cases l with
    | nil => simp [List.isPrefixOf]
    | cons b bs =>
      simp only [List.isPrefixOf, Bool.and_eq_true, beq_iff_eq, ih bs]
      constructor
      · rintro ⟨rfl, r, rfl⟩; exact ⟨r, rfl⟩
      · rintro ⟨r, h⟩
        have h1 : a = b := by simpa using congrArg (List.head? ·) h
        have h2 : as ++ r = bs := by simpa using congrArg (List.tail ·) h
        exact ⟨h1, r, h2⟩

theorem jsIncludes_iff_append (pat s : List Char) :
    jsIncludes pat s = true ↔ ∃ l r, l ++ pat ++ r = s := by
  induction s with
  | nil =>
    simp only [jsIncludes, List.isEmpty_iff]
    constructor
    · rintro rfl; exact ⟨[], [], rfl⟩
    · rintro ⟨l, r, h⟩
      rcases List.append_eq_nil.mp h with ⟨h1, h2⟩
      exact (List.append_eq_nil.mp h1).2
  | cons c t ih =>
    simp only [jsIncludes, Bool.or_eq_true, isPrefixOf_iff_append, ih]
    constructor
    · rintro (⟨r, h⟩ | ⟨l, r, h⟩)
      · exact ⟨[], r, by simpa using h⟩
      · exact ⟨c :: l, r, by simp [h]⟩
    · rintro ⟨l, r, h⟩
      cases l with
      | nil => exact Or.inl ⟨r, by simpa using h⟩
      | cons x xs =>
        right
        refine ⟨xs, r, ?_⟩
        simpa using congrArg (List.tail ·) h

theorem strToLower_eq_empty_iff (s : String) : strToLower s = "" ↔ s = "" := by
  constructor
  · intro h
    cases s with
    | mk data =>
      have h1 : data.map Char.toLower = [] := congrArg String.data h
      have h2 : data = [] := List.map_eq_nil_iff.mp h1
      subst h2
      rfl
  · rintro rfl
    rfl

/-! ## Blog page: data model and pure filter -/

/-- A blog post, as read from `blogPosts.json`: the fields used by the
filtering logic. -/
structure Post where
  id : Nat
  title : String
  description : String
  category : String
  tags : List String
deriving DecidableEq, Repr

/-- Embedding of `pureFilterPosts(posts, category, search)`:

```js
const searchLower = (search || "").toLowerCase();
return posts.filter((post) => {
  const matchesCategory = category === "All" || post.category === category;
  if (!matchesCategory) return false;
  if (!searchLower) return true;
  return (
    post.title.toLowerCase().includes(searchLower) ||
    post.description.toLowerCase().includes(searchLower) ||
    post.tags.some((tag) => tag.toLowerCase().includes(searchLower))
  );
});
```

The falsiness test `!searchLower` is the empty-string test. -/
def pureFilterPosts (posts : List Post) (category : String) (search : String) :
    List Post :=
  let searchLower := strToLower search
  posts.filter fun post =>
    let matchesCategory := category == "All" || post.category == category
    if !matchesCategory then false
    else if searchLower = "" then true
    else
      strIncludes (strToLower post.title) searchLower
      || strIncludes (strToLower post.description) searchLower
      || post.tags.any fun tag => strIncludes (strToLower tag) searchLower

/-- The Filter Predicate, written as the specification states it: accept
iff (category is "All" or the post's category equals it) and (the search
text is empty or, case-insensitively, it occurs in the title, the
description, or some tag). -/
def matchesSpec (category search : String) (post : Post) : Bool :=
  (category == "All" || post.category == category)
  && ((search == "")
      || strIncludes (strToLower post.title) (strToLower search)
      || strIncludes (strToLower post.description) (strToLower search)
      || post.tags.any fun tag => strIncludes (strToLower tag) (strToLower search))

theorem pureFilterPosts_eq_filter (posts : List Post) (category search : String) :
    pureFilterPosts posts category search = posts.filter (matchesSpec category search) := by
  unfold pureFilterPosts
  refine List.filter_congr fun post _ => ?_
  simp only [matchesSpec]
  cases hc : (category == "All" || post.category == category) with
  | false => simp [hc]
  | true =>
    by_cases hs : search = ""
    · subst hs
      simp [strToLower, String.ext_iff]
    · have hlow : ¬ strToLower search = "" := fun h => hs ((strToLower_eq_empty_iff search).mp h)
      have hbeq : (search == "") = false := by
        simp [beq_eq_false_iff_ne, hs]
      simp [hc, hlow, hbeq, Bool.or_assoc]

/-- C1: the Derived View is the order-preserving subsequence of the post
collection selected by the Filter Predicate.  `pureFilterPosts` keeps a
post iff (the category is "All" or the post's category equals the
selected one) and (the search text is empty or its lower casing occurs
as a contiguous substring of the lower-cased title, description, or some
lower-cased tag); the kept posts form a sublist of the input, so their
original relative order is preserved.  The final conjunct grounds the
word "substring": `strIncludes s pat` holds exactly when `pat`'s
characters occur contiguously inside `s`'s characters. -/
theorem pureFilterPosts_correct (posts : List Post) (category search : String) :
    pureFilterPosts posts category search = posts.filter (matchesSpec category search)
    ∧ (∀ post, post ∈ pureFilterPosts posts category search
        ↔ post ∈ posts ∧ matchesSpec category search post = true)
    ∧ List.Sublist (pureFilterPosts posts category search) posts
    ∧ (∀ s pat : String, strIncludes s pat = true ↔ ∃ l r, l ++ pat.data ++ r = s.data) := by
  refine ⟨pureFilterPosts_eq_filter posts category search, ?_, ?_, ?_⟩
  · intro post
    rw [pureFilterPosts_eq_filter]
    exact List.mem_filter
  · rw [pureFilterPosts_eq_filter]
    exact List.filter_sublist posts
  · intro s pat
    exact jsIncludes_iff_append pat.data s.data

/-! ## QuizStart page: topic carousel pagination -/

/-- A selectable quiz topic card. -/
structure Topic where
  id : String
  name : String
  description : String
deriving DecidableEq, Repr

/-- The extra card appended after the supplied topics:
`{ id: 'all', name: 'All Topics', description: 'Questions from every category.' }`. -/
def allTopicsCard : Topic :=
  { id := "all", name := "All Topics", description := "Questions from every category." }

/-- The list `allTopics = [...topics, allTopicsCard]`. -/
def allTopicsOf (topics : List Topic) : List Topic := topics ++ [allTopicsCard]

/-- The constant `CARDS_PER_PAGE = 3`. -/
def CARDS_PER_PAGE : Nat := 3

/-- Embedding of `Array.prototype.slice(start, stop)` for non-negative indices:
the elements at positions `start ≤ j < stop`, both ends clamped to the
array's length (never throwing). -/
def jsSlice {α : Type} (l : List α) (start stop : Nat) : List α :=
  (l.take stop).drop start

/-- The Pagination Window `page(items, i, n)`: the slice from `i*n` to
`(i+1)*n`, as in `allTopics.slice(topicPage * CARDS_PER_PAGE, (topicPage + 1) * CARDS_PER_PAGE)`. -/
def page {α : Type} (items : List α) (i n : Nat) : List α :=
  jsSlice items (i * n) ((i + 1) * n)

/-- Embedding of `Math.ceil(len / n)` on naturals. -/
def ceilDiv (len n : Nat) : Nat := (len + n - 1) / n

/-- The count `totalTopicPages = Math.ceil(allTopics.length / CARDS_PER_PAGE)`. -/
def totalTopicPages (topics : List Topic) : Nat :=
  ceilDiv (allTopicsOf topics).length CARDS_PER_PAGE

/-- The slice `displayedTopics` for a given `topicPage`. -/
def displayedTopics (topics : List Topic) (topicPage : Nat) : List Topic :=
  page (allTopicsOf topics) topicPage CARDS_PER_PAGE

/-- A click on one of the two carousel navigation buttons. -/
inductive NavDir where
  | next
  | prev
deriving DecidableEq, Repr

/-- One user click on a navigation button.  `handleTopicNav(direction)`
is `setTopicPage(p => p + direction)`, but the next button carries
`disabled={topicPage >= totalTopicPages - 1}` and the previous button
`disabled={topicPage === 0}`: a click on a disabled button leaves the
state unchanged. -/
def navStep (total : Nat) (p : Nat) : NavDir → Nat
  | .next => if total - 1 ≤ p then p else p + 1
  | .prev => if p = 0 then p else p - 1

/-- The page index reached from the initial state `topicPage = 0` by a
sequence of button clicks. -/
def navRun (total : Nat) (clicks : List NavDir) : Nat :=
  clicks.foldl (navStep total) 0

theorem length_page {α : Type} (l : List α) (i n : Nat) :
    (page l i n).length = min ((i + 1) * n) l.length - i * n := by
  simp [page, jsSlice]

theorem flatten_pages_take {α : Type} (l : List α) (n : Nat) (k : Nat) :
    ((List.range k).map fun i => page l i n).flatten = l.take (k * n) := by
  induction k with
  | zero => simp
  | succ k ih =>
    rw [List.range_succ, List.map_append, List.flatten_append, ih]
    have hpage : page l k n = (l.drop (k * n)).take n := by
      have h1 : (l.take ((k + 1) * n)).drop (k * n) = (l.drop (k * n)).take ((k + 1) * n - k * n) :=
        List.drop_take ..
      have h2 : (k + 1) * n - k * n = n := by
        have : (k + 1) * n = k * n + n := by ring
        omega
      simpa [page, jsSlice, h2] using h1
    have h3 : (k + 1) * n = k * n + n := by ring
    simp [hpage, h3, List.take_add]

/-- C3: for a positive page size `n`, every page of the Pagination Window
holds at most `n` items, concatenating the pages for indices
`0 .. ceil(len/n) - 1` rebuilds the original list in order with no
duplicates or omissions, and with 7 items and page size 3 the page sizes
are `[3, 3, 1]`. -/
theorem page_pagination_correct {α : Type} (items : List α) (n : Nat) (hn : 0 < n) (i : Nat) :
    (page items i n).length ≤ n
    ∧ ((List.range (ceilDiv items.length n)).map fun j => page items j n).flatten = items
    ∧ (items.length = 7 → n = 3 →
        (List.range (ceilDiv items.length n)).map (fun j => (page items j n).length)
          = [3, 3, 1]) := by
  refine ⟨?_, ?_, ?_⟩
  · have h1 : min ((i + 1) * n) items.length ≤ (i + 1) * n := Nat.min_le_left ..
    have h2 : (i + 1) * n = i * n + n := by ring
    rw [length_page]
    omega
  · rw [flatten_pages_take]
    apply List.take_of_length_le
    have hq := Nat.div_add_mod (items.length + n - 1) n
    have hr : (items.length + n - 1) % n < n := Nat.mod_lt _ hn
    have hcomm : ceilDiv items.length n * n = n * ((items.length + n - 1) / n) :=
      Nat.mul_comm ..
    unfold ceilDiv at hcomm ⊢
    omega
  · intro h7 h3
    subst h3
    have hc : ceilDiv items.length 3 = 3 := by rw [h7]; rfl
    rw [hc]
    have hr3 : List.range 3 = [0, 1, 2] := rfl
    rw [hr3]
    simp [length_page, h7]

/-- C2 as stated fails on the code: with the 7-element item list
`List.range 7` and page size 3, requesting page index 5 yields the empty
page, while the last valid page (index `ceil(7/3) - 1 = 2`) is `[6]`. -/
theorem page_index_five_not_last_page :
    page (List.range 7) 5 3 = ([] : List Nat)
    ∧ page (List.range 7) (ceilDiv (List.range 7).length 3 - 1) 3 = [6]
    ∧ page (List.range 7) 5 3 ≠ page (List.range 7) (ceilDiv (List.range 7).length 3 - 1) 3 := by
  decide

/-- C2 (amended): requesting a page whose index is out of range does not
throw — the slice clamps both bounds to the list and yields the empty
page (in particular, with 7 items and page size 3, page index 5 yields
`[]`, not the last page) — and the navigation operations are no-ops at
the boundaries: a next click at (or beyond) the last page and a previous
click at page 0 leave the page index unchanged. -/
theorem page_out_of_range_and_nav_noops {α : Type} (items : List α) (i n total p : Nat)
    (hout : items.length ≤ i * n) (hlast : total - 1 ≤ p) :
    page items i n = []
    ∧ page (List.range 7) 5 3 = ([] : List Nat)
    ∧ navStep total p .next = p
    ∧ navStep total 0 .prev = 0 := by
  refine ⟨?_, by decide, ?_, ?_⟩
  · apply List.drop_eq_nil_of_le
    rw [List.length_take]
    exact le_trans (Nat.min_le_right _ _) hout
  · simp [navStep, hlast]
  · simp [navStep]

theorem page_out_of_range_and_nav_noops_witness :
    page (List.range 7) 5 3 = ([] : List Nat)
    ∧ page (List.range 7) 5 3 = ([] : List Nat)
    ∧ navStep 3 2 .next = 2
    ∧ navStep 3 0 .prev = 0 :=
  page_out_of_range_and_nav_noops (List.range 7) 5 3 3 2 (by decide) (by decide)

theorem navStep_lt (total p : Nat) (d : NavDir) (h0 : 0 < total) (hp : p < total) :
    navStep total p d < total := by
  cases d <;> simp only [navStep] <;> split <;> omega

theorem foldl_navStep_lt (total : Nat) (h0 : 0 < total) (clicks : List NavDir) :
    ∀ p, p < total → clicks.foldl (navStep total) p < total := by
  induction clicks with
  | nil => intro p hp; simpa using hp
  | cons d rest ih => intro p hp; exact ih _ (navStep_lt total p d h0 hp)

/-- C4: the pagination invariant `0 ≤ pageIndex < ceil(totalItems / pageSize)`
holds in every state reachable from the initial state `topicPage = 0` by the
clicks the UI permits (next only below the last page, previous only above
page 0), for any fixed topic collection.  The lower bound is inherent in the
`Nat`-valued index. -/
theorem topicPage_invariant (topics : List Topic) (clicks : List NavDir) :
    navRun (totalTopicPages topics) clicks < totalTopicPages topics := by
  have h0 : 0 < totalTopicPages topics := by
    unfold totalTopicPages ceilDiv CARDS_PER_PAGE allTopicsOf
    rw [List.length_append]
    simp only [List.length_cons, List.length_nil]
    omega
  exact foldl_navStep_lt _ h0 clicks 0 h0

theorem page_pagination_correct_witness :
    (page (List.range 7) 5 3).length ≤ 3
    ∧ ((List.range (ceilDiv (List.range 7).length 3)).map fun j => page (List.range 7) j 3).flatten
        = List.range 7
    ∧ (List.range (ceilDiv (List.range 7).length 3)).map (fun j => (page (List.range 7) j 3).length)
        = [3, 3, 1] :=
  have h := page_pagination_correct (List.range 7) 3 (by decide) 5
  ⟨h.1, h.2.1, h.2.2 (by decide) rfl⟩

/-! ## Signup page: password rules, submit handler, password input -/

/-- The regular-expression character classes used by `checkPasswordRules`. -/
def isUpperAZ (c : Char) : Bool := decide ('A' ≤ c) && decide (c ≤ 'Z')

def isLowerAZ (c : Char) : Bool := decide ('a' ≤ c) && decide (c ≤ 'z')

def isDigit09 (c : Char) : Bool := decide ('0' ≤ c) && decide (c ≤ '9')

/-- Membership in the class `[!@#$%^&*]`. -/
def isSpecialChar (c : Char) : Bool := "!@#$%^&*".data.contains c

/-- The five rule flags returned by `checkPasswordRules(password)`. -/
structure PasswordRules where
  length : Bool
  uppercase : Bool
  lowercase : Bool
  number : Bool
  specialChar : Bool
deriving DecidableEq, Repr

/-- Embedding of `checkPasswordRules`:

```js
const checkPasswordRules = (password) => ({
  length: password.length >= 8,
  uppercase: /[A-Z]/.test(password),
  lowercase: /[a-z]/.test(password),
  number: /[0-9]/.test(password),
  specialChar: /[!@#$%^&*]/.test(password),
});
``` -/
def checkPasswordRules (password : String) : PasswordRules where
  length := decide (8 ≤ password.length)
  uppercase := password.data.any isUpperAZ
  lowercase := password.data.any isLowerAZ
  number := password.data.any isDigit09
  specialChar := password.data.any isSpecialChar

/-- C5: `checkPasswordRules` returns the five booleans, each computed by
an independent predicate over the raw password string (length test,
presence of a character in each of the four classes), and on the two
scenario inputs: "Abc1234!" sets all five flags and "abcdefgh" sets
exactly `length` and `lowercase`. -/
theorem checkPasswordRules_correct (password : String) :
    (checkPasswordRules password).length = decide (8 ≤ password.length)
    ∧ (checkPasswordRules password).uppercase = password.data.any isUpperAZ
    ∧ (checkPasswordRules password).lowercase = password.data.any isLowerAZ
    ∧ (checkPasswordRules password).number = password.data.any isDigit09
    ∧ (checkPasswordRules password).specialChar = password.data.any isSpecialChar
    ∧ checkPasswordRules "Abc1234!"
        = { length := true, uppercase := true, lowercase := true,
            number := true, specialChar := true }
    ∧ checkPasswordRules "abcdefgh"
        = { length := true, uppercase := false, lowercase := true,
            number := false, specialChar := false } := by
  refine ⟨rfl, rfl, rfl, rfl, rfl, by decide, by decide⟩

/-- C6: the rule flags are independent.  Each flag is determined by its
own datum about the password — the length for `length`, presence of a
character of the matching class for the other four — so for any two
passwords agreeing on that datum, the corresponding flag agrees, whatever
the other character classes do. -/
theorem checkPasswordRules_independent (p q : String) :
    (p.length = q.length
      → (checkPasswordRules p).length = (checkPasswordRules q).length)
    ∧ (p.data.any isUpperAZ = q.data.any isUpperAZ
      → (checkPasswordRules p).uppercase = (checkPasswordRules q).uppercase)
    ∧ (p.data.any isLowerAZ = q.data.any isLowerAZ
      → (checkPasswordRules p).lowercase = (checkPasswordRules q).lowercase)
    ∧ (p.data.any isDigit09 = q.data.any isDigit09
      → (checkPasswordRules p).number = (checkPasswordRules q).number)
    ∧ (p.data.any isSpecialChar = q.data.any isSpecialChar
      → (checkPasswordRules p).specialChar = (checkPasswordRules q).specialChar) := by
  refine ⟨fun h => ?_, fun h => h, fun h => h, fun h => h, fun h => h⟩
  simp [checkPasswordRules, h]

theorem checkPasswordRules_independent_witness :
    ((checkPasswordRules "abc12345").length = (checkPasswordRules "zzz99999").length)
    ∧ ((checkPasswordRules "abc12345").uppercase = (checkPasswordRules "zzz99999").uppercase)
    ∧ ((checkPasswordRules "abc12345").lowercase = (checkPasswordRules "zzz99999").lowercase)
    ∧ ((checkPasswordRules "abc12345").number = (checkPasswordRules "zzz99999").number)
    ∧ ((checkPasswordRules "abc12345").specialChar = (checkPasswordRules "zzz99999").specialChar) :=
  have h := checkPasswordRules_independent "abc12345" "zzz99999"
  ⟨h.1 (by decide), h.2.1 (by decide), h.2.2.1 (by decide),
   h.2.2.2.1 (by decide), h.2.2.2.2 (by decide)⟩

/-- The signup form state `formData`. -/
structure FormData where
  firstName : String
  lastName : String
  email : String
  password : String
  confirmPassword : String
  agreeToTerms : Bool
deriving DecidableEq, Repr

/-- Outcome of the backend call `authService.signup(name, email, password)`:
either it resolves with `{user, token}`, or it rejects and the caught
error carries `error.message` (possibly the empty string when no message
is set, matching the `error.message || ...` fallback). -/
inductive SignupResponse where
  | ok (user token : String)
  | err (message : String)
deriving DecidableEq, Repr

/-- The observable result of one run of `handleSubmit`: the inline error
string after the run, whether `authService.signup` was called, whether
`navigate("/")` ran, the final `isLoading` flag (it starts out `false`
and the `finally` block always restores `false`), and the
`localStorage` writes of user and token. -/
structure SubmitOutcome where
  error : String
  backendCalled : Bool
  navigatedHome : Bool
  isLoading : Bool
  stored : Option (String × String)
deriving DecidableEq, Repr

/-- Embedding of `handleSubmit`: clear the error; if the password and its
confirmation differ, set "Passwords don't match!" and return; if the
consent box is unchecked, set "Please agree to the terms and conditions"
and return; otherwise call the backend, and on success store user/token
and navigate home, while on rejection display `error.message` (or the
generic fallback when the message is empty) and stay on the form; the
`finally` block clears `isLoading` on every backend path. -/
def handleSubmit (form : FormData) (backend : SignupResponse) : SubmitOutcome :=
  if form.password ≠ form.confirmPassword then
    { error := "Passwords don't match!", backendCalled := false,
      navigatedHome := false, isLoading := false, stored := none }
  else if form.agreeToTerms = false then
    { error := "Please agree to the terms and conditions", backendCalled := false,
      navigatedHome := false, isLoading := false, stored := none }
  else
    match backend with
    | .ok user token =>
      { error := "", backendCalled := true, navigatedHome := true,
        isLoading := false, stored := some (user, token) }
    | .err message =>
      { error := if message = "" then "Signup failed. Please try again." else message,
        backendCalled := true, navigatedHome := false, isLoading := false, stored := none }

/-- C7: submission is blocked client-side exactly when the confirmation
differs from the password or the consent flag is unset — in that case an
inline error is set and the backend is never called, nothing is stored
and no navigation happens; and when the backend rejects with a non-empty
message, that exact message is displayed, no navigation occurs, nothing
is stored, and loading is cleared. -/
theorem handleSubmit_correct (form : FormData) (backend : SignupResponse) (msg : String) :
    ((handleSubmit form backend).backendCalled = false
      ↔ (form.password ≠ form.confirmPassword ∨ form.agreeToTerms = false))
    ∧ ((form.password ≠ form.confirmPassword ∨ form.agreeToTerms = false) →
        (handleSubmit form backend).error ≠ ""
        ∧ (handleSubmit form backend).navigatedHome = false
        ∧ (handleSubmit form backend).stored = none)
    ∧ (form.password = form.confirmPassword → form.agreeToTerms = true → msg ≠ "" →
        handleSubmit form (.err msg)
          = { error := msg, backendCalled := true, navigatedHome := false,
              isLoading := false, stored := none }) := by
  by_cases hpw : form.password = form.confirmPassword
  · by_cases hagree : form.agreeToTerms = false
    · refine ⟨?_, ?_, ?_⟩
      · simp [handleSubmit, hpw, hagree]
      · intro _
        simp [handleSubmit, hpw, hagree]
      · intro _ htrue _
        rw [hagree] at htrue
        exact absurd htrue (by decide)
    · have htrue : form.agreeToTerms = true := by
        cases h : form.agreeToTerms
        · exact absurd h hagree
        · rfl
      refine ⟨?_, ?_, ?_⟩
      · cases backend <;> simp [handleSubmit, hpw, htrue]
      · rintro (h | h)
        · exact absurd hpw h
        · exact absurd h hagree
      · intro _ _ hmsg
        simp [handleSubmit, hpw, htrue, hmsg]
  · refine ⟨?_, ?_, ?_⟩
    · simp [handleSubmit, hpw]
    · intro _
      refine ⟨?_, ?_, ?_⟩ <;> simp [handleSubmit, hpw]
    · intro h
      exact absurd h hpw

theorem handleSubmit_correct_witness :
    ((handleSubmit ⟨"Ada", "Lovelace", "ada@example.com", "Abc1234!", "Abc1234?", false⟩
        (.err "Email already in use")).backendCalled = false
      ↔ ((⟨"Ada", "Lovelace", "ada@example.com", "Abc1234!", "Abc1234?", false⟩ : FormData).password
            ≠ (⟨"Ada", "Lovelace", "ada@example.com", "Abc1234!", "Abc1234?", false⟩ : FormData).confirmPassword
          ∨ (⟨"Ada", "Lovelace", "ada@example.com", "Abc1234!", "Abc1234?", false⟩ : FormData).agreeToTerms = false))
    ∧ ((handleSubmit ⟨"Ada", "Lovelace", "ada@example.com", "Abc1234!", "Abc1234?", false⟩
          (.err "Email already in use")).error ≠ ""
        ∧ (handleSubmit ⟨"Ada", "Lovelace", "ada@example.com", "Abc1234!", "Abc1234?", false⟩
            (.err "Email already in use")).navigatedHome = false
        ∧ (handleSubmit ⟨"Ada", "Lovelace", "ada@example.com", "Abc1234!", "Abc1234?", false⟩
            (.err "Email already in use")).stored = none)
    ∧ handleSubmit ⟨"Ada", "Lovelace", "ada@example.com", "Abc1234!", "Abc1234!", true⟩
          (.err "Email already in use")
        = { error := "Email already in use", backendCalled := true, navigatedHome := false,
            isLoading := false, stored := none } :=
  have h1 := handleSubmit_correct
    ⟨"Ada", "Lovelace", "ada@example.com", "Abc1234!", "Abc1234?", false⟩
    (.err "Email already in use") "Email already in use"
  have h2 := handleSubmit_correct
    ⟨"Ada", "Lovelace", "ada@example.com", "Abc1234!", "Abc1234!", true⟩
    (.err "Email already in use") "Email already in use"
  ⟨h1.1, h1.2.1 (by decide), h2.2.2 rfl rfl (by decide)⟩

/-- The set of characters stripped by `String.prototype.trimStart`:
ASCII whitespace, the no-break space, and the byte-order mark (the
representative WhiteSpace/LineTerminator code points). -/
def jsWhitespace (c : Char) : Bool :=
  c = ' ' || c = '\t' || c = '\n' || c = '\x0b' || c = '\x0c' || c = '\r'
  || c = ' ' || c = '﻿'

/-- Embedding of `input.trimStart()`: drop the longest whitespace run at the front. -/
def jsTrimStart (s : String) : String := ⟨s.data.dropWhile jsWhitespace⟩

/-- Embedding of `input.startsWith(" ")`: the first character is a plain space. -/
def startsWithSpace (s : String) : Bool :=
  match s.data with
  | [] => false
  | c :: _ => c = ' '

/-- Embedding of `handlePasswordChange`:

```js
let input = e.target.value;
if (input.startsWith(" ")) input = input.trimStart();
setFormData((prev) => ({ ...prev, password: input }));
``` -/
def handlePasswordChange (raw : String) (form : FormData) : FormData :=
  let input := if startsWithSpace raw then jsTrimStart raw else raw
  { form with password := input }

theorem head_dropWhile_not (p : Char → Bool) (l : List Char) :
    ∀ c, (l.dropWhile p).head? = some c → p c = false := by
  induction l with
  | nil => intro c h; simp [List.dropWhile] at h
  | cons a t ih =>
    intro c h
    rw [List.dropWhile] at h
    cases hpa : p a with
    | true => rw [hpa] at h; exact ih c h
    | false =>
      rw [hpa] at h
      simp only [List.head?] at h
      cases h
      exact hpa

/-- C10: the password stored in the form state never begins with a space.
Whenever the raw input starts with a space, `handlePasswordChange` strips
the whole leading whitespace run (`trimStart`) before the state update,
and in every case the stored password's first character is not `' '`, so
`checkPasswordRules` and the submit comparison never see a leading
space. -/
theorem handlePasswordChange_no_leading_space (raw : String) (form : FormData) :
    ((handlePasswordChange raw form).password.data.head? ≠ some ' ')
    ∧ (startsWithSpace raw = true →
        (handlePasswordChange raw form).password = jsTrimStart raw) := by
  cases hs : startsWithSpace raw with
  | true =>
    refine ⟨?_, fun _ => ?_⟩
    · intro h
      have hdata : (handlePasswordChange raw form).password.data
          = raw.data.dropWhile jsWhitespace := by
        simp [handlePasswordChange, hs, jsTrimStart]
      rw [hdata] at h
      have hw := head_dropWhile_not jsWhitespace raw.data ' ' h
      simp [jsWhitespace] at hw
    · simp [handlePasswordChange, hs]
  | false =>
    refine ⟨?_, fun h => ?_⟩
    · intro h
      have hdata : (handlePasswordChange raw form).password.data = raw.data := by
        simp [handlePasswordChange, hs]
      rw [hdata] at h
      unfold startsWithSpace at hs
      cases hd : raw.data with
      | nil => rw [hd] at h; simp at h
      | cons c t =>
        rw [hd] at h hs
        simp only [List.head?, Option.some.injEq] at h
        subst h
        simp at hs
    · exact absurd h (by simp [hs])

theorem handlePasswordChange_no_leading_space_witness :
    ((handlePasswordChange "  Abc 1!" ⟨"", "", "", "", "", false⟩).password.data.head?
        ≠ some ' ')
    ∧ (handlePasswordChange "  Abc 1!" ⟨"", "", "", "", "", false⟩).password
        = jsTrimStart "  Abc 1!" :=
  have h := handlePasswordChange_no_leading_space "  Abc 1!" ⟨"", "", "", "", "", false⟩
  ⟨h.1, h.2 (by decide)⟩

/-! ## Contribute page: repository statistics fetch -/

/-- The `repoStats` component state. -/
structure RepoStats where
  stars : Nat
  forks : Nat
  issues : Nat
  contributors : Nat
deriving DecidableEq, Repr

/-- The initial state `useState({ stars: 0, forks: 0, issues: 0, contributors: 0 })`. -/
def initialRepoStats : RepoStats :=
  { stars := 0, forks := 0, issues := 0, contributors := 0 }

/-- The possible outcomes of the GitHub statistics request: `fetch` (or
`response.json()`) throws, the response is not OK, or it is OK and each
count field is either present with a value or absent (`none`). -/
inductive FetchOutcome where
  | fetchError
  | notOk
  | ok (stargazers forks openIssues : Option Nat)
deriving DecidableEq, Repr

/-- Embedding of `fetchRepoStats`: on a thrown error the `catch` block
only logs and the state is untouched; on a non-OK response the `if
(response.ok)` guard skips the update; on success the state becomes
`{ stars: data.stargazers_count || 0, forks: data.forks_count || 0,
issues: data.open_issues_count || 0, contributors: 0 }`, each absent
field falling back to 0. -/
def fetchRepoStats (current : RepoStats) : FetchOutcome → RepoStats
  | .fetchError => current
  | .notOk => current
  | .ok s f i =>
    { stars := s.getD 0, forks := f.getD 0, issues := i.getD 0, contributors := 0 }

/-- C8: the displayed counters start at zero, stay unchanged when the
fetch throws or the response is not OK (the failure is only logged), and
on success every absent count field falls back to 0; the handler is a
total function of the outcome, so no outcome crashes the view. -/
theorem fetchRepoStats_safe (current : RepoStats) (s f i : Option Nat) :
    initialRepoStats = { stars := 0, forks := 0, issues := 0, contributors := 0 }
    ∧ fetchRepoStats current .fetchError = current
    ∧ fetchRepoStats current .notOk = current
    ∧ (s = none → (fetchRepoStats current (.ok s f i)).stars = 0)
    ∧ (f = none → (fetchRepoStats current (.ok s f i)).forks = 0)
    ∧ (i = none → (fetchRepoStats current (.ok s f i)).issues = 0) := by
  refine ⟨rfl, rfl, rfl, ?_, ?_, ?_⟩ <;> rintro rfl <;> rfl

theorem fetchRepoStats_safe_witness :
    initialRepoStats = { stars := 0, forks := 0, issues := 0, contributors := 0 }
    ∧ fetchRepoStats initialRepoStats .fetchError = initialRepoStats
    ∧ fetchRepoStats initialRepoStats .notOk = initialRepoStats
    ∧ (fetchRepoStats initialRepoStats (.ok none none none)).stars = 0
    ∧ (fetchRepoStats initialRepoStats (.ok none none none)).forks = 0
    ∧ (fetchRepoStats initialRepoStats (.ok none none none)).issues = 0 :=
  have h := fetchRepoStats_safe initialRepoStats none none none
  ⟨h.1, h.2.1, h.2.2.1, h.2.2.2.1 rfl, h.2.2.2.2.1 rfl, h.2.2.2.2.2 rfl⟩

/-! ## Blog page: interaction-tracking counters -/

/-- The `performanceMetrics` state.  `pageLoadTime` starts as `null` and
is set once after the simulated load; its measured duration is abstracted
to a natural number of milliseconds. -/
structure PerformanceMetrics where
  searchOperations : Nat
  filterOperations : Nat
  pageLoadTime : Option Nat
  interactions : Nat
deriving DecidableEq, Repr

/-- The initial metrics installed on mount. -/
def initialMetrics : PerformanceMetrics :=
  { searchOperations := 0, filterOperations := 0, pageLoadTime := none, interactions := 0 }

/-- The interaction-recording events of the Blog page: `handleSearch`,
`handleCategorySelect`, `trackPostInteraction` (opening a post), the
post-render effect counting filter recomputations, and the newsletter
button. -/
inductive BlogEvent where
  | search (term : String)
  | categorySelect (category : String)
  | itemOpen (postId : Nat) (action : String)
  | filterEffect
  | newsletterClick
deriving DecidableEq, Repr

/-- How each handler updates `performanceMetrics` (each handler is
side-effect-only in the source — it returns no value — so it is embedded
as a state transformer on the metrics):

* `handleSearch`: `searchOperations + 1` and `interactions + 1`;
* `handleCategorySelect`: `interactions + 1`;
* `trackPostInteraction(postId, action)`: `interactions + 1`;
* the filter-counting effect: `filterOperations + 1`;
* the newsletter button: `interactions + 1`. -/
def recordEvent (m : PerformanceMetrics) : BlogEvent → PerformanceMetrics
  | .search _ =>
    { m with searchOperations := m.searchOperations + 1, interactions := m.interactions + 1 }
  | .categorySelect _ => { m with interactions := m.interactions + 1 }
  | .itemOpen _ _ => { m with interactions := m.interactions + 1 }
  | .filterEffect => { m with filterOperations := m.filterOperations + 1 }
  | .newsletterClick => { m with interactions := m.interactions + 1 }

/-- The metrics after a sequence of events within one page lifetime. -/
def runEvents (events : List BlogEvent) : PerformanceMetrics :=
  events.foldl recordEvent initialMetrics

theorem foldl_recordEvent_mono (events : List BlogEvent) :
    ∀ m : PerformanceMetrics,
      m.searchOperations ≤ (events.foldl recordEvent m).searchOperations
      ∧ m.filterOperations ≤ (events.foldl recordEvent m).filterOperations
      ∧ m.interactions ≤ (events.foldl recordEvent m).interactions := by
  induction events with
  | nil => intro m; exact ⟨Nat.le_refl _, Nat.le_refl _, Nat.le_refl _⟩
  | cons e rest ih =>
    intro m
    have hstep :
        m.searchOperations ≤ (recordEvent m e).searchOperations
        ∧ m.filterOperations ≤ (recordEvent m e).filterOperations
        ∧ m.interactions ≤ (recordEvent m e).interactions := by
      cases e <;> simp [recordEvent]
    have htail := ih (recordEvent m e)
    exact ⟨Nat.le_trans hstep.1 htail.1, Nat.le_trans hstep.2.1 htail.2.1,
      Nat.le_trans hstep.2.2 htail.2.2⟩

/-- C9: each interaction-recording operation increments its relevant
counter (`handleSearch` bumps `searchOperations` and `interactions`, a
category change and an item open bump `interactions`, the filter effect
bumps `filterOperations`); the counters start at zero on mount; and over
any event sequence every counter is non-decreasing — no operation ever
decreases one (non-negativity is inherent in the `Nat`-valued
counters). -/
theorem interactionCounters_monotone (m : PerformanceMetrics) (e : BlogEvent)
    (events more : List BlogEvent) (term category action : String) (postId : Nat) :
    (recordEvent m (.search term)).searchOperations = m.searchOperations + 1
    ∧ (recordEvent m (.search term)).interactions = m.interactions + 1
    ∧ (recordEvent m (.categorySelect category)).interactions = m.interactions + 1
    ∧ (recordEvent m (.itemOpen postId action)).interactions = m.interactions + 1
    ∧ (recordEvent m .filterEffect).filterOperations = m.filterOperations + 1
    ∧ runEvents [] = initialMetrics
    ∧ initialMetrics.searchOperations = 0
    ∧ initialMetrics.filterOperations = 0
    ∧ initialMetrics.interactions = 0
    ∧ m.searchOperations ≤ (recordEvent m e).searchOperations
    ∧ m.filterOperations ≤ (recordEvent m e).filterOperations
    ∧ m.interactions ≤ (recordEvent m e).interactions
    ∧ (runEvents events).searchOperations
        ≤ (runEvents (events ++ more)).searchOperations
    ∧ (runEvents events).filterOperations
        ≤ (runEvents (events ++ more)).filterOperations
    ∧ (runEvents events).interactions ≤ (runEvents (events ++ more)).interactions := by
  have hstep : ∀ (m' : PerformanceMetrics) (e' : BlogEvent),
      m'.searchOperations ≤ (recordEvent m' e').searchOperations
      ∧ m'.filterOperations ≤ (recordEvent m' e').filterOperations
      ∧ m'.interactions ≤ (recordEvent m' e').interactions := by
    intro m' e'
    cases e' <;> simp [recordEvent]
  have happ : runEvents (events ++ more) = more.foldl recordEvent (runEvents events) := by
    simp [runEvents, List.foldl_append]
  have hmono := foldl_recordEvent_mono more (runEvents events)
  refine ⟨rfl, rfl, rfl, rfl, rfl, rfl, rfl, rfl, rfl,
    (hstep m e).1, (hstep m e).2.1, (hstep m e).2.2, ?_, ?_, ?_⟩ <;> rw [happ]
  · exact hmono.1
  · exact hmono.2.1
  · exact hmono.2.2
